import Mathlib

/-!
Verification of the bluetooth-battery tool's core pipeline (src/main.rs):
device records, the icon glyph table (emoji and pango-markup encodings),
bulk and targeted retrieval from the bus, ordering, and formatting.
Each Rust item is embedded as a Lean definition of the same name where
possible; theorems below settle the specification's claims about them.
-/

/-- Newtype over the freedesktop icon-class string (Rust `struct Icon(String)`).
The `FromStr` impl always succeeds, so construction is total. -/
structure Icon where
  str : String
deriving DecidableEq

/-- `Icon::from_str`: always returns `Ok` (Rust `impl FromStr for Icon`). -/
def Icon.fromStr (s : String) : Except Unit Icon :=
  Except.ok (Icon.mk s)

/-- `Icon::emoji`: plain-encoding glyph lookup (Rust `Icon::emoji`). -/
def Icon.emoji (i : Icon) : Option String :=
  match i.str with
  | "audio-headset" => some "🎧 "
  | "phone" | "pda" => some "📱 "
  | "input-keyboard" => some "⌨️ "
  | "input-mouse" => some "🖱️ "
  | "input-gaming" => some "🎮 "
  | "input-tablet" => some "🖍️  "
  | "multimedia-player" => some "📻 "
  | "printer" | "scanner" => some "🖨️  "
  | _ => none

/-- The pango markup wrapper produced by the Rust `i3!` macro. -/
def i3span (x : String) : String :=
  "<span font_desc=\x27Material Symbols Outlined @opsz=20,FILL=1,GRAD=-25\x27 rise=\x27-3pt\x27>"
    ++ x ++ "</span> "

/-- `Icon::material_symbols`: rich-markup-encoding glyph lookup. -/
def Icon.material_symbols (i : Icon) : Option String :=
  match i.str with
  | "audio-headset" => some (i3span "headphones")
  | "phone" | "pda" => some (i3span "smartphone")
  | "input-keyboard" => some (i3span "keyboard")
  | "input-mouse" => some (i3span "mouse")
  | "input-gaming" => some (i3span "sports_esports")
  | "input-tablet" => some (i3span "tablet_android")
  | "multimedia-player" => some (i3span "media_bluetooth_on")
  | "printer" => some (i3span "print")
  | "scanner" => some (i3span "scanner")
  | _ => none

/-- The validated device record (Rust `struct Device`), field order as in the
source (`name`, `icon`, `power`), which fixes the derived lexicographic order.
`power` is a `u64` in the source; values are embedded as `Nat`. -/
structure Device where
  name : String
  icon : Icon
  power : Nat
deriving DecidableEq

/-- `Device::long`: `format!("{}{} ({}%)", glyph, name, power)` where the glyph
is the markup lookup when `i3` is set, the emoji lookup otherwise, and a `None`
lookup contributes `unwrap_or_default()`, i.e. the empty string. -/
def Device.long (d : Device) (i3 : Bool) : String :=
  (if i3 then d.icon.material_symbols else d.icon.emoji).getD ""
    ++ d.name ++ " (" ++ toString d.power ++ "%)"

/-- `Device::short`: `format!("{} {}%", name, power)`; no glyph, no `i3` input. -/
def Device.short (d : Device) : String :=
  d.name ++ " " ++ toString d.power ++ "%"

/-- `Device::narrow`: `format!("{}{}%", glyph, power)`. -/
def Device.narrow (d : Device) (i3 : Bool) : String :=
  (if i3 then d.icon.material_symbols else d.icon.emoji).getD ""
    ++ toString d.power ++ "%"

/-- The formatting mode (Rust `enum DeviceFormat`); `Narrow` is the default. -/
inductive DeviceFormat where
  | Long
  | Short
  | Narrow
deriving DecidableEq

instance : Inhabited DeviceFormat := ⟨DeviceFormat.Narrow⟩

/-- The exact set of icon-class strings recognized by both lookups. -/
def recognizedClasses : List String :=
  ["audio-headset", "phone", "pda", "input-keyboard", "input-mouse",
   "input-gaming", "input-tablet", "multimedia-player", "printer", "scanner"]

/-- Claim C6: both glyph lookups are total functions of the input string, and
they yield a non-empty glyph exactly on the ten recognized icon classes; every
other string yields the empty glyph (after `unwrap_or_default`), never an
error. -/
theorem c6_icon_lookups_nonempty_iff_recognized :
    ∀ s : String,
      (((Icon.mk s).emoji.getD "" ≠ "") ↔ s ∈ recognizedClasses) ∧
      (((Icon.mk s).material_symbols.getD "" ≠ "") ↔ s ∈ recognizedClasses) := by
  intro s
  constructor
  · unfold Icon.emoji
    split <;> simp_all [recognizedClasses]
  · unfold Icon.material_symbols
    split <;> simp_all [recognizedClasses, i3span]

/-- Claim C8: the plain (emoji) encoding maps `printer` and `scanner` to the
same glyph, while the rich-markup encoding maps them to two distinct glyphs,
and `multimedia-player` has a different symbol in the rich encoding than in
the plain one. -/
theorem c8_printer_scanner_encoding_divergence :
    (Icon.mk "printer").emoji = (Icon.mk "scanner").emoji ∧
    (Icon.mk "printer").material_symbols ≠ (Icon.mk "scanner").material_symbols ∧
    (Icon.mk "multimedia-player").material_symbols ≠ (Icon.mk "multimedia-player").emoji := by
  refine ⟨rfl, ?_, ?_⟩ <;> decide

/-- Claim C4: Long renders `<glyph><name> (<power>%)`, Short renders
`<name> <power>%` with no glyph regardless of the markup flag, Narrow renders
`<glyph><power>%`; the glyph is the plain lookup normally and the markup
lookup under the flag, an unrecognized class contributes the empty string,
and the record `{name := "Foo", icon := "audio-headset", power := 42}` with
plain glyph `g` renders as `g ++ "Foo (42%)"`, `"Foo 42%"`, `g ++ "42%"`. -/
theorem c4_per_record_rendering :
    (∀ (d : Device) (i3 : Bool),
        d.long i3 =
          (if i3 then d.icon.material_symbols else d.icon.emoji).getD ""
            ++ d.name ++ " (" ++ toString d.power ++ "%)") ∧
    (∀ d : Device, d.short = d.name ++ " " ++ toString d.power ++ "%") ∧
    (∀ (d : Device) (i3 : Bool),
        d.narrow i3 =
          (if i3 then d.icon.material_symbols else d.icon.emoji).getD ""
            ++ toString d.power ++ "%") ∧
    (∀ (d : Device) (i3 : Bool), d.icon.emoji = none → d.icon.material_symbols = none →
        d.long i3 = d.name ++ " (" ++ toString d.power ++ "%)" ∧
        d.narrow i3 = toString d.power ++ "%") ∧
    (∀ g, (Icon.mk "audio-headset").emoji = some g →
        (Device.mk "Foo" (Icon.mk "audio-headset") 42).long false = g ++ "Foo (42%)" ∧
        (Device.mk "Foo" (Icon.mk "audio-headset") 42).short = "Foo 42%" ∧
        (Device.mk "Foo" (Icon.mk "audio-headset") 42).narrow false = g ++ "42%") := by
  refine ⟨fun d i3 => rfl, fun d => rfl, fun d i3 => rfl, ?_, ?_⟩
  · intro d i3 he hm
    constructor
    · unfold Device.long
      cases i3 <;> simp [he, hm]
    · unfold Device.narrow
      cases i3 <;> simp [he, hm]
  · intro g hg
    have hg' : g = "🎧 " := by
      have h0 : (Icon.mk "audio-headset").emoji = some "🎧 " := rfl
      rw [h0] at hg
      exact (Option.some.inj hg).symm
    subst hg'
    refine ⟨?_, ?_, ?_⟩ <;> decide

/-- The derived lexicographic strict order on `Device` (Rust `derive(Ord)`):
by `name`, then by the icon-class string, then by `power`. -/
def deviceLt (a b : Device) : Prop :=
  a.name < b.name ∨
    (a.name = b.name ∧
      (a.icon.str < b.icon.str ∨ (a.icon.str = b.icon.str ∧ a.power < b.power)))

/-- The matching non-strict order. -/
def deviceLe (a b : Device) : Prop :=
  deviceLt a b ∨ a = b

instance instDeviceLtDec (a b : Device) : Decidable (deviceLt a b) :=
  decidable_of_iff
    (a.name.toList < b.name.toList ∨
      (a.name = b.name ∧
        (a.icon.str.toList < b.icon.str.toList ∨
          (a.icon.str = b.icon.str ∧ a.power < b.power))))
    (by simp only [deviceLt, String.lt_iff_toList_lt])

instance instDeviceLeDec (a b : Device) : Decidable (deviceLe a b) := by
  unfold deviceLe
  infer_instance

theorem deviceLt_trans {a b c : Device} (h1 : deviceLt a b) (h2 : deviceLt b c) :
    deviceLt a c := by
  unfold deviceLt at h1 h2 ⊢
  rcases h1 with h1 | ⟨e1, h1⟩ <;> rcases h2 with h2 | ⟨e2, h2⟩
  · exact Or.inl (lt_trans h1 h2)
  · exact Or.inl (e2 ▸ h1)
  · exact Or.inl (e1 ▸ h2)
  · refine Or.inr ⟨e1.trans e2, ?_⟩
    rcases h1 with h1 | ⟨f1, h1⟩ <;> rcases h2 with h2 | ⟨f2, h2⟩
    · exact Or.inl (lt_trans h1 h2)
    · exact Or.inl (f2 ▸ h1)
    · exact Or.inl (f1 ▸ h2)
    · exact Or.inr ⟨f1.trans f2, lt_trans h1 h2⟩

theorem deviceLt_irrefl (a : Device) : ¬ deviceLt a a := by
  unfold deviceLt
  simp

theorem deviceLt_trichotomy (a b : Device) : deviceLt a b ∨ a = b ∨ deviceLt b a := by
  unfold deviceLt
  rcases lt_trichotomy a.name b.name with h | h | h
  · exact Or.inl (Or.inl h)
  · rcases lt_trichotomy a.icon.str b.icon.str with h2 | h2 | h2
    · exact Or.inl (Or.inr ⟨h, Or.inl h2⟩)
    · rcases lt_trichotomy a.power b.power with h3 | h3 | h3
      · exact Or.inl (Or.inr ⟨h, Or.inr ⟨h2, h3⟩⟩)
      · refine Or.inr (Or.inl ?_)
        obtain ⟨an, ⟨ai⟩, ap⟩ := a
        obtain ⟨bn, ⟨bi⟩, bp⟩ := b
        simp_all
      · exact Or.inr (Or.inr (Or.inr ⟨h.symm, Or.inr ⟨h2.symm, h3⟩⟩))
    · exact Or.inr (Or.inr (Or.inr ⟨h.symm, Or.inl h2⟩))
  · exact Or.inr (Or.inr (Or.inl h))

theorem deviceLe_trans {a b c : Device} (h1 : deviceLe a b) (h2 : deviceLe b c) :
    deviceLe a c := by
  rcases h1 with h1 | rfl <;> rcases h2 with h2 | rfl
  · exact Or.inl (deviceLt_trans h1 h2)
  · exact Or.inl h1
  · exact Or.inl h2
  · exact Or.inr rfl

theorem deviceLe_total (a b : Device) : deviceLe a b ∨ deviceLe b a := by
  rcases deviceLt_trichotomy a b with h | h | h
  · exact Or.inl (Or.inl h)
  · exact Or.inl (Or.inr h)
  · exact Or.inr (Or.inl h)

instance : IsTrans Device deviceLe := ⟨fun _ _ _ => deviceLe_trans⟩

instance : IsTotal Device deviceLe := ⟨deviceLe_total⟩

/-- `devices.sort_unstable()`: sort ascending by the derived order. The Rust
sort is modelled by insertion sort; since `deviceLe` is a total order whose
equal elements are identical records, any correct sort produces this list. -/
def sortUnstable (ds : List Device) : List Device :=
  List.insertionSort deviceLe ds

/-- Separator printed between adjacent records (two spaces for Short, one
space otherwise), from the `if let DeviceFormat::Short` branch in `main`. -/
def sep : DeviceFormat → String
  | DeviceFormat.Short => "  "
  | _ => " "

/-- Per-record rendering dispatch (the `match opt.fmt` in `main`). -/
def renderOne (fmt : DeviceFormat) (i3 : Bool) (d : Device) : String :=
  match fmt with
  | DeviceFormat.Long => d.long i3
  | DeviceFormat.Short => d.short
  | DeviceFormat.Narrow => d.narrow i3

/-- The output loop of `main`: at index `i` out of `n` records, print the
record, then the separator when `i < n - 1`, then a newline when `i = n - 1`. -/
def renderLoop (fmt : DeviceFormat) (i3 : Bool) (n : Nat) : Nat → List Device → String
  | _, [] => ""
  | i, d :: rest =>
      renderOne fmt i3 d
        ++ (if i < n - 1 then sep fmt else "")
        ++ (if i = n - 1 then "\n" else "")
        ++ renderLoop fmt i3 n (i + 1) rest

/-- Full output of the loop over an already-sorted collection. -/
def renderAll (fmt : DeviceFormat) (i3 : Bool) (devices : List Device) : String :=
  renderLoop fmt i3 devices.length 0 devices

/-- The tail of `main`: sort, then render. -/
def run (fmt : DeviceFormat) (i3 : Bool) (devices : List Device) : String :=
  renderAll fmt i3 (sortUnstable devices)

/-- Modelled from the spec: the joined form it describes, with exactly one
separator between every adjacent pair of renderings; used as the refinement
target for claim C3. -/
def specJoin (s : String) : List String → String
  | [] => ""
  | [x] => x
  | x :: y :: rest => x ++ s ++ specJoin s (y :: rest)

theorem renderLoop_eq_specJoin (fmt : DeviceFormat) (i3 : Bool) (n : Nat) :
    ∀ (ds : List Device) (i : Nat), ds ≠ [] → i + ds.length = n →
      renderLoop fmt i3 n i ds =
        specJoin (sep fmt) (ds.map (renderOne fmt i3)) ++ "\n" := by
  intro ds
  induction ds with
  | nil => simp
  | cons d rest ih =>
    intro i _ hlen
    cases rest with
    | nil =>
      have h1 : ¬ (i < n - 1) := by
        simp at hlen
        omega
      have h2 : i = n - 1 := by
        simp at hlen
        omega
      simp [renderLoop, h1, h2, specJoin, String.append_assoc]
    | cons e rest2 =>
      have h1 : i < n - 1 := by
        simp at hlen
        omega
      have h2 : i ≠ n - 1 := by
        simp at hlen
        omega
      have ih2 := ih (i + 1) (by simp) (by simp at hlen ⊢; omega)
      have hstep : renderLoop fmt i3 n i (d :: e :: rest2) =
          renderOne fmt i3 d
            ++ (if i < n - 1 then sep fmt else "")
            ++ (if i = n - 1 then "\n" else "")
            ++ renderLoop fmt i3 n (i + 1) (e :: rest2) := rfl
      rw [hstep, ih2, if_pos h1, if_neg h2]
      simp [specJoin, String.append_assoc, String.append_empty]

/-- Claim C5: `Device` records are totally ordered lexicographically by
`(name, icon-class string, power)`: with different names `a < b` iff
`a.name < b.name`; name ties are broken by the icon string, and icon ties by
power; the order is irreflexive, transitive and trichotomous; and the sort in
`main` produces a permutation of the input that is sorted ascending by this
order. -/
theorem c5_lexicographic_total_order_and_sort :
    (∀ a b : Device, a.name ≠ b.name → (deviceLt a b ↔ a.name < b.name)) ∧
    (∀ a b : Device, a.name = b.name → a.icon.str ≠ b.icon.str →
        (deviceLt a b ↔ a.icon.str < b.icon.str)) ∧
    (∀ a b : Device, a.name = b.name → a.icon.str = b.icon.str →
        (deviceLt a b ↔ a.power < b.power)) ∧
    (∀ a : Device, ¬ deviceLt a a) ∧
    (∀ a b c : Device, deviceLt a b → deviceLt b c → deviceLt a c) ∧
    (∀ a b : Device, deviceLt a b ∨ a = b ∨ deviceLt b a) ∧
    (∀ ds : List Device,
        (sortUnstable ds).Perm ds ∧ (sortUnstable ds).Sorted deviceLe) := by
  refine ⟨?_, ?_, ?_, deviceLt_irrefl, fun a b c => deviceLt_trans, deviceLt_trichotomy, ?_⟩
  · intro a b hne
    unfold deviceLt
    simp [hne]
  · intro a b he hne
    unfold deviceLt
    simp [he, hne, lt_irrefl]
  · intro a b he hi
    unfold deviceLt
    simp [he, hi, lt_irrefl]
  · intro ds
    exact ⟨List.perm_insertionSort deviceLe ds, List.sorted_insertionSort deviceLe ds⟩

theorem c5_witness :
    (deviceLt (Device.mk "Alpha" (Icon.mk "phone") 10) (Device.mk "Beta" (Icon.mk "pda") 5) ↔
        ("Alpha" : String) < "Beta") ∧
    (deviceLt (Device.mk "Alpha" (Icon.mk "pda") 10) (Device.mk "Alpha" (Icon.mk "phone") 5) ↔
        ("pda" : String) < "phone") ∧
    (deviceLt (Device.mk "Alpha" (Icon.mk "phone") 5) (Device.mk "Alpha" (Icon.mk "phone") 10) ↔
        5 < 10) ∧
    deviceLt (Device.mk "Alpha" (Icon.mk "phone") 5) (Device.mk "Gamma" (Icon.mk "pda") 7) :=
  ⟨c5_lexicographic_total_order_and_sort.1 _ _ (by decide),
   c5_lexicographic_total_order_and_sort.2.1 _ _ rfl (by decide),
   c5_lexicographic_total_order_and_sort.2.2.1 _ _ rfl rfl,
   c5_lexicographic_total_order_and_sort.2.2.2.2.1 _ (Device.mk "Beta" (Icon.mk "pda") 5) _
     (Or.inl (by rw [String.lt_iff_toList_lt]; decide))
     (Or.inl (by rw [String.lt_iff_toList_lt]; decide))⟩

/-- Claim C3: the final output joins the per-record renderings in sorted order
with exactly one separator between every adjacent pair (two spaces in Short
mode, one space in Long and Narrow modes), followed by exactly one newline;
an empty collection produces the empty string with no newline. -/
theorem c3_collection_rendering :
    ∀ (fmt : DeviceFormat) (i3 : Bool) (ds : List Device),
      (sep DeviceFormat.Short = "  " ∧ sep DeviceFormat.Long = " " ∧
        sep DeviceFormat.Narrow = " ") ∧
      (ds = [] → run fmt i3 ds = "") ∧
      (ds ≠ [] →
        run fmt i3 ds =
          specJoin (sep fmt) ((sortUnstable ds).map (renderOne fmt i3)) ++ "\n") := by
  intro fmt i3 ds
  refine ⟨⟨rfl, rfl, rfl⟩, ?_, ?_⟩
  · rintro rfl
    rfl
  · intro hne
    have hlen : (sortUnstable ds).length = ds.length :=
      (List.perm_insertionSort deviceLe ds).length_eq
    have hsne : sortUnstable ds ≠ [] := by
      intro h0
      rw [h0] at hlen
      exact hne (List.length_eq_zero.mp hlen.symm)
    unfold run renderAll
    exact renderLoop_eq_specJoin fmt i3 (sortUnstable ds).length (sortUnstable ds) 0 hsne
      (Nat.zero_add _)

theorem c3_witness :
    run DeviceFormat.Short false
        [Device.mk "B" (Icon.mk "pda") 2, Device.mk "A" (Icon.mk "phone") 1] =
      "A 1%" ++ "  " ++ "B 2%" ++ "\n" ∧
    run DeviceFormat.Narrow false [] = "" := by
  constructor
  · have h := (c3_collection_rendering DeviceFormat.Short false
        [Device.mk "B" (Icon.mk "pda") 2, Device.mk "A" (Icon.mk "phone") 1]).2.2 (by decide)
    rw [h]
    decide
  · exact (c3_collection_rendering DeviceFormat.Narrow false []).2.1 rfl

/-- A loosely-typed dbus property value as the program can observe it: a
boolean, a byte (dbus type `y`, the wire guarantees the 0..255 range), a wider
unsigned integer, or a text string. -/
inductive Value where
  | bool (b : Bool)
  | byte (n : Fin 256)
  | u64 (n : Nat)
  | str (s : String)
deriving DecidableEq

/-- `RefArg::as_u64`: succeeds on the integer-like variants (booleans and
unsigned integers), fails on text. -/
def Value.as_u64 : Value → Option Nat
  | Value.bool b => some (if b then 1 else 0)
  | Value.byte n => some n.val
  | Value.u64 n => some n
  | Value.str _ => none

/-- `RefArg::as_str`: succeeds only on text. -/
def Value.as_str : Value → Option String
  | Value.str s => some s
  | _ => none

/-- First-match association-list lookup, modelling `HashMap::get` (keys are
unique in a real property map). -/
def assocGet {α : Type} (k : String) : List (String × α) → Option α
  | [] => none
  | (k2, v) :: rest => if k2 = k then some v else assocGet k rest

/-- One managed object's value in the bulk reply: interface name → property
name → value. -/
def InterfaceBag : Type := List (String × List (String × Value))

/-- The bulk `filter_map` closure from `main`: decode one managed object into
zero or one device records, in the source's read order (`Device1` interface,
`Connected`, `Name`, `Icon`, then `Battery1.Percentage`), emitting only when
`Connected` decoded integer-like and nonzero. -/
def decodeDevice (v : InterfaceBag) : Option Device := do
  let device ← assocGet "org.bluez.Device1" v
  let connected : Bool :=
    match (assocGet "Connected" device).bind Value.as_u64 with
    | some x => decide (x ≠ 0)
    | none => false
  let name ← (assocGet "Name" device).bind Value.as_str
  let icon ← ((assocGet "Icon" device).bind Value.as_str).bind
    (fun s => (Icon.fromStr s).toOption)
  let power ← ((assocGet "org.bluez.Battery1" v).bind (assocGet "Percentage")).bind
    Value.as_u64
  if connected then some (Device.mk name icon power) else none

/-- The bulk retriever over the values of the managed-objects reply. -/
def bulkRetrieve (objects : List InterfaceBag) : List Device :=
  objects.filterMap decodeDevice

/-- The bus oracle for the targeted path: `(path, interface, property)` to
either a transport/read error or the property's value. -/
def Bus : Type := String → String → String → Except String Value

/-- `proxy.get::<T>(interface, property)`: typed property read; fails when the
underlying read fails or the value does not have the requested type. -/
def getTyped {α : Type} (bus : Bus) (path iface prop : String)
    (cast : Value → Option α) : Except String α :=
  match bus path iface prop with
  | Except.error e => Except.error e
  | Except.ok v =>
    match cast v with
    | some a => Except.ok a
    | none => Except.error ("unexpected type for property " ++ prop)

/-- The `bool` cast used for `Connected` (strict: only a dbus boolean). -/
def castBool : Value → Option Bool
  | Value.bool b => some b
  | _ => none

/-- The `u8` cast used for `Percentage` (strict: only a dbus byte). -/
def castByte : Value → Option (Fin 256)
  | Value.byte n => some n
  | _ => none

/-- The `String` cast used for `Name` and `Icon`. -/
def castString : Value → Option String
  | Value.str s => some s
  | _ => none

/-- `address.to_ascii_uppercase()`: per-character ASCII uppercasing
(`Char.toUpper` only maps `a`..`z`, exactly like the Rust method). -/
def toAsciiUppercase (s : String) : String :=
  String.mk (s.data.map Char.toUpper)

/-- `.replace(':', "_")`: with a single-character pattern and replacement this
is a per-character map. -/
def replaceColons (s : String) : String :=
  String.mk (s.data.map (fun c => if c = ':' then '_' else c))

/-- The queried object path for one user-supplied address (main.rs 119–122):
`format!("/org/bluez/hci0/dev_{}", address.to_ascii_uppercase().replace(':', "_"))`. -/
def devicePath (address : String) : String :=
  "/org/bluez/hci0/dev_" ++ replaceColons (toAsciiUppercase address)

/-- The targeted retrieval loop of `main`: per address, read `Connected`
(strict boolean, `?` operator); skip the address when false; otherwise read
`Percentage` (u8), `Name`, `Icon` (all with `?`), and push a record. Any `?`
failure aborts the whole loop with that error. -/
def targetedRetrieve (bus : Bus) : List String → Except String (List Device)
  | [] => Except.ok []
  | address :: rest => do
    let path := devicePath address
    let connected ← getTyped bus path "org.bluez.Device1" "Connected" castBool
    if !connected then
      targetedRetrieve bus rest
    else do
      let power ← getTyped bus path "org.bluez.Battery1" "Percentage" castByte
      let name ← getTyped bus path "org.bluez.Device1" "Name" castString
      let icon ← getTyped bus path "org.bluez.Device1" "Icon" castString
      let restDevices ← targetedRetrieve bus rest
      Except.ok (Device.mk name (Icon.mk icon) power.val :: restDevices)

/-- Claim C1: in the targeted loop, an address whose `Connected` reads as
`false` is skipped with no error and no record and processing continues with
the remaining addresses; an address whose `Connected` reads `true` but whose
`Percentage`, `Name` or `Icon` read fails aborts the whole invocation with the
propagated error, regardless of the remaining addresses. -/
theorem c1_targeted_skip_vs_fail :
    ∀ (bus : Bus) (a : String) (rest : List String),
      (getTyped bus (devicePath a) "org.bluez.Device1" "Connected" castBool =
          Except.ok false →
        targetedRetrieve bus (a :: rest) = targetedRetrieve bus rest) ∧
      (∀ e, getTyped bus (devicePath a) "org.bluez.Device1" "Connected" castBool =
          Except.ok true →
        (getTyped bus (devicePath a) "org.bluez.Battery1" "Percentage" castByte =
            Except.error e ∨
          (∃ p, getTyped bus (devicePath a) "org.bluez.Battery1" "Percentage" castByte =
              Except.ok p ∧
            getTyped bus (devicePath a) "org.bluez.Device1" "Name" castString =
              Except.error e) ∨
          (∃ p n,
            getTyped bus (devicePath a) "org.bluez.Battery1" "Percentage" castByte =
              Except.ok p ∧
            getTyped bus (devicePath a) "org.bluez.Device1" "Name" castString =
              Except.ok n ∧
            getTyped bus (devicePath a) "org.bluez.Device1" "Icon" castString =
              Except.error e)) →
        targetedRetrieve bus (a :: rest) = Except.error e) := by
  intro bus a rest
  constructor
  · intro h
    simp only [targetedRetrieve, h]
    rfl
  · intro e hc hfail
    rcases hfail with hp | ⟨p, hp, hn⟩ | ⟨p, n, hp, hn, hi⟩
    · simp only [targetedRetrieve, hc, hp]
      rfl
    · simp only [targetedRetrieve, hc, hp, hn]
      rfl
    · simp only [targetedRetrieve, hc, hp, hn, hi]
      rfl

theorem c1_witness :
    (targetedRetrieve (fun _ _ _ => Except.ok (Value.bool false)) ["aa"] =
        targetedRetrieve (fun _ _ _ => Except.ok (Value.bool false)) []) ∧
    targetedRetrieve
        (fun _ _ prop =>
          if prop = "Connected" then Except.ok (Value.bool true)
          else Except.error "boom")
        ["aa", "bb"] =
      Except.error "boom" :=
  ⟨(c1_targeted_skip_vs_fail (fun _ _ _ => Except.ok (Value.bool false)) "aa" []).1 rfl,
   (c1_targeted_skip_vs_fail
       (fun _ _ prop =>
         if prop = "Connected" then Except.ok (Value.bool true)
         else Except.error "boom")
       "aa" ["bb"]).2 "boom" rfl (Or.inl rfl)⟩

/-- Claim C9: in the targeted loop a failure to read `Connected` itself is
fatal for the whole invocation — the error propagates past all remaining
addresses and is not treated as a disconnected-device skip. -/
theorem c9_connected_read_failure_fatal :
    ∀ (bus : Bus) (a : String) (rest : List String) (e : String),
      getTyped bus (devicePath a) "org.bluez.Device1" "Connected" castBool =
        Except.error e →
      targetedRetrieve bus (a :: rest) = Except.error e := by
  intro bus a rest e h
  simp only [targetedRetrieve, h]
  rfl

theorem c9_witness :
    targetedRetrieve (fun _ _ _ => Except.error "bus unreachable") ["aa", "bb"] =
      Except.error "bus unreachable" :=
  c9_connected_read_failure_fatal (fun _ _ _ => Except.error "bus unreachable")
    "aa" ["bb"] "bus unreachable" rfl

/-- Claim C2: the bulk closure emits a record for an object exactly when the
object has the `Device1` interface, a textual `Name`, a textual `Icon`, a
`Battery1.Percentage` decodable as an unsigned integer, and a `Connected`
value decodable as a nonzero integer-like value; all other objects are
silently excluded (the retriever is a total `filter_map`, so no per-object
failure can raise an error). -/
theorem c2_bulk_emission_iff :
    (∀ v : InterfaceBag,
      (∃ d, decodeDevice v = some d) ↔
        (∃ device, assocGet "org.bluez.Device1" v = some device ∧
          (∃ n, (assocGet "Name" device).bind Value.as_str = some n) ∧
          (∃ i, (assocGet "Icon" device).bind Value.as_str = some i) ∧
          (∃ p, ((assocGet "org.bluez.Battery1" v).bind (assocGet "Percentage")).bind
              Value.as_u64 = some p) ∧
          (∃ c, (assocGet "Connected" device).bind Value.as_u64 = some c ∧ c ≠ 0))) ∧
    (∀ (objects : List InterfaceBag) (d : Device),
      d ∈ bulkRetrieve objects ↔ ∃ v ∈ objects, decodeDevice v = some d) := by
  constructor
  · intro v
    unfold decodeDevice
    cases h1 : assocGet "org.bluez.Device1" v with
    | none => simp [h1]
    | some device =>
      cases hn : (assocGet "Name" device).bind Value.as_str with
      | none => simp [h1, hn]
      | some name =>
        cases hi : (assocGet "Icon" device).bind Value.as_str with
        | none => simp [h1, hn, hi]
        | some iconStr =>
          cases hp : ((assocGet "org.bluez.Battery1" v).bind (assocGet "Percentage")).bind
              Value.as_u64 with
          | none => simp [h1, hn, hi, hp]
          | some power =>
            cases hc : (assocGet "Connected" device).bind Value.as_u64 with
            | none => simp [h1, hn, hi, hp, hc]
            | some c =>
              by_cases hc0 : c = 0
              · subst hc0
                simp [h1, hn, hi, hp, hc, Icon.fromStr, Except.toOption]
              · simp [h1, hn, hi, hp, hc, hc0, Icon.fromStr, Except.toOption]
  · intro objects d
    simp [bulkRetrieve, List.mem_filterMap]

theorem except_bind_ok {α β : Type} (a : α) (f : α → Except String β) :
    (Except.ok a >>= f) = f a := rfl

theorem except_bind_error {α β : Type} (e : String) (f : α → Except String β) :
    ((Except.error e : Except String α) >>= f) = Except.error e := rfl

/-- Claim C10: every record the targeted retriever produces has power at most
255 (the `Percentage` read is a `u8`), while the bulk decoder accepts any
unsigned-integer `Percentage`, e.g. 1000 — the two paths do not accept the
same range of battery values. -/
theorem c10_targeted_power_byte_bounded :
    (∀ (bus : Bus) (addrs : List String) (ds : List Device),
        targetedRetrieve bus addrs = Except.ok ds → ∀ d, d ∈ ds → d.power ≤ 255) ∧
    (∃ (v : InterfaceBag) (d : Device), decodeDevice v = some d ∧ 255 < d.power) := by
  constructor
  · intro bus addrs
    induction addrs with
    | nil =>
      intro ds h d hd
      simp only [targetedRetrieve] at h
      cases h
      cases hd
    | cons a rest ih =>
      intro ds h d hd
      simp only [targetedRetrieve] at h
      cases hc : getTyped bus (devicePath a) "org.bluez.Device1" "Connected" castBool with
      | error e => simp [hc, except_bind_error] at h
      | ok b =>
        cases b with
        | false =>
          simp [hc, except_bind_ok] at h
          exact ih ds h d hd
        | true =>
          simp only [hc, except_bind_ok] at h
          cases hp : getTyped bus (devicePath a) "org.bluez.Battery1" "Percentage" castByte with
          | error e => simp [hp, except_bind_error, except_bind_ok] at h
          | ok p =>
            cases hname : getTyped bus (devicePath a) "org.bluez.Device1" "Name" castString with
            | error e => simp [hp, hname, except_bind_error, except_bind_ok] at h
            | ok nm =>
              cases hicon : getTyped bus (devicePath a) "org.bluez.Device1" "Icon" castString with
              | error e => simp [hp, hname, hicon, except_bind_error, except_bind_ok] at h
              | ok ic =>
                cases hrest : targetedRetrieve bus rest with
                | error e => simp [hp, hname, hicon, hrest, except_bind_error, except_bind_ok] at h
                | ok restDs =>
                  simp [hp, hname, hicon, hrest, except_bind_ok] at h
                  subst h
                  rcases List.mem_cons.mp hd with rfl | hd2
                  · have hlt := p.isLt
                    show p.val ≤ 255
                    omega
                  · exact ih restDs hrest d hd2
  · refine ⟨[("org.bluez.Device1",
        [("Connected", Value.bool true), ("Name", Value.str "X"),
         ("Icon", Value.str "phone")]),
       ("org.bluez.Battery1", [("Percentage", Value.u64 1000)])],
      Device.mk "X" (Icon.mk "phone") 1000, rfl, by decide⟩

theorem c10_witness :
    (Device.mk "Foo" (Icon.mk "Foo") 99).power ≤ 255 :=
  c10_targeted_power_byte_bounded.1
    (fun _ _ prop =>
      if prop = "Connected" then Except.ok (Value.bool true)
      else if prop = "Percentage" then Except.ok (Value.byte 99)
      else Except.ok (Value.str "Foo"))
    ["aa"] [Device.mk "Foo" (Icon.mk "Foo") 99] rfl
    (Device.mk "Foo" (Icon.mk "Foo") 99) (by simp)

theorem toUpper_eq_colon_iff (c : Char) : c.toUpper = ':' ↔ c = ':' := by
  constructor
  · intro h
    have hdef : c.toUpper =
        if c.toNat ≥ 97 ∧ c.toNat ≤ 122 then Char.ofNat (c.toNat - 32) else c := rfl
    rw [hdef] at h
    by_cases hcond : c.toNat ≥ 97 ∧ c.toNat ≤ 122
    · exfalso
      rw [if_pos hcond] at h
      obtain ⟨ha, hb⟩ := hcond
      have hv : (c.toNat - 32).isValidChar := Or.inl (by omega)
      have ht : (Char.ofNat (c.toNat - 32)).toNat = c.toNat - 32 := by
        rw [Char.ofNat, dif_pos hv]
        simp [Char.ofNatAux, Char.toNat, UInt32.toNat, BitVec.toNat_ofNatLt]
      rw [h] at ht
      have h58 : (':' : Char).toNat = 58 := by decide
      omega
    · rw [if_neg hcond] at h
      exact h
  · intro h
    subst h
    decide

/-- Claim C7: the queried object path for an address is
`"/org/bluez/hci0/dev_"` followed by the address with each character
ASCII-uppercased and each `:` separator replaced by `_`. -/
theorem c7_targeted_path_derivation :
    (∀ address : String,
      devicePath address =
        "/org/bluez/hci0/dev_" ++
          String.mk (address.data.map (fun c => if c = ':' then '_' else c.toUpper))) ∧
    devicePath "aa:bb:cc:dd:ee:ff" = "/org/bluez/hci0/dev_AA_BB_CC_DD_EE_FF" := by
  constructor
  · intro address
    unfold devicePath replaceColons toAsciiUppercase
    congr 1
    rw [List.map_map]
    congr 1
    apply List.map_congr_left
    intro c _
    by_cases hc : c = ':'
    · subst hc
      have h1 : (':' : Char).toUpper = ':' := by decide
      simp [h1]
    · have h2 : c.toUpper ≠ ':' := fun h => hc ((toUpper_eq_colon_iff c).mp h)
      simp [hc, h2]
  · decide

theorem c4_witness :
    (Device.mk "Foo" (Icon.mk "audio-headset") 42).long false = "🎧 " ++ "Foo (42%)" ∧
    (Device.mk "Bar" (Icon.mk "mystery") 7).narrow true = toString (7 : Nat) ++ "%" :=
  ⟨(c4_per_record_rendering.2.2.2.2 "🎧 " rfl).1,
   (c4_per_record_rendering.2.2.2.1 (Device.mk "Bar" (Icon.mk "mystery") 7) true rfl rfl).2⟩
